import Mathlib

/-!
# Release verification checks of `bin/verifyBrowser.js`

A shallow embedding of the script that checks a published browser release:
the callback that receives the "latest" manifest (the statements of lines
76-167, which follow its guard on the fetch itself), the callback of
`verifyUrl` (lines 41-53) and the callbacks of the `RELEASES` index fetches
(lines 111-151).

Conventions of the embedding.

* JavaScript strings are Lean strings. A value that may be `undefined`
  (a missing property, an index past the end of an array) is an
  `Option String`; where the script concatenates such a value the coercion
  is written out (`undefinedToString`, `nullToString`).
* The script is asynchronous: a function that calls `request.head` or
  `request.get` only issues the request. The embedding of a piece of
  synchronous code is a `Run`: the lines it prints, the requests it issues in
  order, and how it ends. A callback is embedded as a function of the
  `(err, response)` pair it is called with.
* The manifest body is the list of its entries in the order `_.map` visits
  them; an entry is an object whose `version` and `url` are strings or
  missing.
* The `versions` object of line 79 is used as a set of strings. Its embedding
  keeps what a plain object does with property names: `Object.keys` lists
  array indices first, and the name `__proto__` cannot be added by assignment.
* A callback reads the variables of the enclosing function when it runs, not
  when its request is issued. The variable `winx64_url` is assigned twice
  (lines 110 and 140), so the callbacks that read it see the second value
  (`scopeAtCallbacks`), while the requests issued synchronously use the value
  current at their line.
* The library function `url.parse` is a parameter of the code that calls it;
  `urlParse` is a model of it on which the code can be evaluated.
* The routine `nope` is imported from `../src/common`, which is not among the
  sources; it is modelled after the specification.
-/

namespace VerifyBrowser

/-! ## JavaScript built-ins the script relies on -/

/-- String coercion of a value that is a string or `undefined`, as performed by `+`. -/
def undefinedToString : Option String → String
  | none => "undefined"
  | some s => s

/-- String coercion of a value that is a string or `null`, as performed by `+`. -/
def nullToString : Option String → String
  | none => "null"
  | some s => s

/-- Truthiness of a value that is a string or `undefined`: only a non-empty string is truthy. -/
def truthy : Option String → Bool
  | none => false
  | some s => s != ""

/-- Character-level worker of `jsSplit`: the pieces between occurrences of `sep`. -/
def splitChars (sep : Char) : List Char → List (List Char)
  | [] => [[]]
  | c :: cs =>
    if c = sep then [] :: splitChars sep cs
    else
      match splitChars sep cs with
      | [] => [[c]]
      | w :: ws => (c :: w) :: ws

/-- The method `String.prototype.split` with a one-character separator. -/
def jsSplit (s : String) (sep : Char) : List String :=
  (splitChars sep s.data).map String.mk

/-- The method `Array.prototype.join`. -/
def jsJoin (xs : List String) (sep : String) : String :=
  sep.intercalate xs

/-- The method `Array.prototype.slice(0, n)`. -/
def jsSliceFromZero (xs : List String) (n : Nat) : List String :=
  xs.take n

/-- Result of `s.match(/osx/)` as a condition: the text `osx` occurs somewhere in `s`. -/
def matchesOsx (s : String) : Bool :=
  decide ("osx".data <:+: s.data)

/-- The number a property name denotes when it is an array index: a canonical
decimal numeral (no sign, no leading zero) below `2^32 - 1`. -/
def arrayIndex? (k : String) : Option Nat :=
  match k.data with
  | [] => none
  | c :: cs =>
    if (c :: cs).all Char.isDigit && (c != '0' || cs.isEmpty) then
      let n := (c :: cs).foldl (fun acc d => 10 * acc + (d.toNat - 48)) 0
      if n < 4294967295 then some n else none
    else none

/-- Effect of `obj[k] = true` on a plain object created by `{}` whose own properties all
hold `true`; the object is represented by its own property names in creation order.
The name `__proto__` is the accessor inherited from `Object.prototype`: assigning a
value that is neither an object nor `null` to it creates no property. -/
def setTrue (obj : List String) (k : String) : List String :=
  if k = "__proto__" then obj
  else if k ∈ obj then obj
  else obj ++ [k]

/-- The function `Object.keys` on such an object: array indices in ascending numeric order,
then the other names in creation order. -/
def objectKeys (obj : List String) : List String :=
  (obj.filter (fun k => (arrayIndex? k).isSome)).insertionSort
      (fun a b => (arrayIndex? a).getD 0 ≤ (arrayIndex? b).getD 0)
    ++ obj.filter (fun k => !(arrayIndex? k).isSome)

/-! ## Data model -/

/-- One manifest entry (`json[0]` in the script). -/
structure Entry where
  version : Option String
  url : Option String
deriving DecidableEq

/-- The command-line arguments the callbacks read. -/
structure Args where
  channel : String
  warn : Bool
deriving DecidableEq

/-- The environment variables the manifest callback reads. -/
structure Env where
  BASE_URL : Option String
  BASE_LEGACY_URL : Option String
deriving DecidableEq

/-- The part of an HTTP response the callbacks read. -/
structure Response where
  statusCode : Nat
  body : String
deriving DecidableEq

/-- The fields of the object returned by `url.parse` (each a string or `null`). -/
structure ParsedUrl where
  protocol : Option String
  auth : Option String
  host : Option String
  port : Option String
  hostname : Option String
  pathname : Option String
  path : Option String
deriving DecidableEq

/-- A request issued by the script. -/
inductive Request where
  /-- Issued by `verifyUrl(url, msg)`: `request.head(url, ...)`. -/
  | head (url msg : String)
  /-- Issued by `request.get(url, ...)`. -/
  | get (url : String)
deriving DecidableEq

/-- How a piece of synchronous code ends. -/
inductive Completion where
  /-- It ran to its end. -/
  | normal
  /-- The routine `nope` ended the run. -/
  | halted (msg : String)
  /-- The call `assert.equal(err, null)` threw. -/
  | assertionError
  /-- A property of `null` was read. -/
  | typeError
  /-- The statement `throw new Error(message)` was executed. -/
  | error (message : String)
deriving DecidableEq

/-- What a piece of synchronous code did: the lines printed, the requests issued, how it ended. -/
structure Run where
  stdout : List String
  requests : List Request
  completion : Completion
deriving DecidableEq

/-- The empty statement. -/
def Run.skip : Run := ⟨[], [], .normal⟩

/-- The statement `console.log(line)`. -/
def Run.log (line : String) : Run := ⟨[line], [], .normal⟩

/-- Sequencing: `k` runs only when `r` ran to its end. -/
def Run.andThen (r k : Run) : Run :=
  match r.completion with
  | .normal => ⟨r.stdout ++ k.stdout, r.requests ++ k.requests, k.completion⟩
  | _ => r

/-! ## A model of `url.parse` for evaluating the script on concrete URLs -/

/-- Characters allowed in a scheme by `url.parse` (`/^([a-z0-9.+-]+:)/i`). -/
def isSchemeChar (c : Char) : Bool :=
  c.isAlphanum || c = '.' || c = '+' || c = '-'

/-- Schemes that `url.parse` always follows by `//`. -/
def slashedProtocol (proto : String) : Bool :=
  proto ∈ ["http:", "https:", "ftp:", "gopher:", "file:"]

/-- Index of the last occurrence of `c` in `cs`. -/
def lastIndexOf (c : Char) (cs : List Char) : Option Nat :=
  (List.range cs.length).reverse.find? (fun i => cs.get? i = some c)

/-- Splits `host[:port]` at a trailing `:digits`. -/
def splitPort (hp : List Char) : List Char × Option (List Char) :=
  match lastIndexOf ':' hp with
  | none => (hp, none)
  | some i =>
    if (hp.drop (i + 1)).all Char.isDigit then
      (hp.take i, if hp.drop (i + 1) = [] then none else some (hp.drop (i + 1)))
    else (hp, none)

/-- Node's legacy `url.parse(url)` on the URLs the manifest and the CDN use:
`scheme://[auth@]host[:port][path][?query][#hash]`, and strings without a scheme,
which are a path. Left out: trimming of surrounding blanks, backslashes, IPv6
literals, internationalised host names, percent-escaping of unsafe characters,
host-ending characters other than `/`, `?` and `#`, and schemes written without `//`. -/
def urlParse (url : String) : ParsedUrl :=
  let cs := url.data
  let scheme := cs.takeWhile isSchemeChar
  let afterScheme := cs.dropWhile isSchemeChar
  let hasProto := !scheme.isEmpty && afterScheme.head? = some ':'
  let proto : Option String :=
    if hasProto then some (String.mk (scheme.map Char.toLower ++ [':'])) else none
  let rest := if hasProto then afterScheme.drop 1 else cs
  let slashes := hasProto && rest.take 2 = ['/', '/']
  let rest := if slashes then rest.drop 2 else rest
  let isHostEnd : Char → Bool := fun c => c = '/' || c = '?' || c = '#'
  let authority := if slashes then rest.takeWhile (fun c => !isHostEnd c) else []
  let rest := if slashes then rest.dropWhile (fun c => !isHostEnd c) else rest
  let auth : Option (List Char) := (lastIndexOf '@' authority).map (fun i => authority.take i)
  let hostPort :=
    match lastIndexOf '@' authority with
    | some i => authority.drop (i + 1)
    | none => authority
  let hostname := (splitPort hostPort).1.map Char.toLower
  let port := (splitPort hostPort).2
  let beforeHash := rest.takeWhile (fun c => c != '#')
  let pathname0 := beforeHash.takeWhile (fun c => c != '?')
  let search := beforeHash.dropWhile (fun c => c != '?')
  let pathname :=
    if pathname0.isEmpty && slashes && !hostname.isEmpty
        && slashedProtocol (nullToString proto) then ['/'] else pathname0
  { protocol := proto
    auth := auth.map String.mk
    host :=
      if slashes then
        some (String.mk (hostname ++ (match port with | some p => ':' :: p | none => [])))
      else none
    port := port.map String.mk
    hostname := if slashes then some (String.mk hostname) else none
    pathname := if pathname.isEmpty then none else some (String.mk pathname)
    path := if pathname.isEmpty && search.isEmpty then none
            else some (String.mk (pathname ++ search)) }

/-! ## The script -/

/-- Modelled from the spec: the routine `nope` of `../src/common`, which is not among
the sources. The spec makes a version mismatch "a hard stop" that is "always fatal,
halts before any artifact check runs" and exits the process non-zero: the routine ends
the run, carrying the message it was given. -/
def nope (msg : String) : Run := ⟨[], [], .halted msg⟩

/-- Lines 40-41: `verifyUrl(url, msg)` issues a HEAD request for `url`. -/
def verifyUrl (url msg : String) : Run := ⟨[], [.head url msg], .normal⟩

/-- Lines 41-53: the callback of `verifyUrl(url, msg)`, called with `(err, response)`. -/
def verifyUrlCallback (args : Args) (url msg : String) (err : Option String)
    (response : Response) : Run :=
  match err with
  | some _ => ⟨[], [], .assertionError⟩
  | none =>
    if response.statusCode = 200 then
      Run.log ("  OK ... " ++ url)
    else
      (Run.log ("HTTP Status code: " ++ toString response.statusCode ++ " " ++ "url: " ++ " " ++ url)).andThen
        (if args.warn then
          Run.log ("  FAILED ... " ++ msg ++ " : " ++ url)
        else
          ⟨[], [], .error (msg ++ " : " ++ url)⟩)

/-- Lines 79-84: the keys of the object that records each entry's version. -/
def versionKeys (contents : List Entry) : List String :=
  objectKeys
    (contents.foldl (fun versions json => setTrue versions (undefinedToString json.version)) [])

/-- Lines 97-100: the disk-image check derived from an entry's url and version. -/
def dmgCheck (parse : String → ParsedUrl) (url version : String) : Run :=
  let parsed := parse url
  match parsed.path with
  | none => ⟨[], [], .typeError⟩
  | some path =>
    let urlPath := jsSplit path '/'
    let urlPath := jsJoin (jsSliceFromZero urlPath (urlPath.length - 1)) "/"
    verifyUrl
      (nullToString parsed.protocol ++ "//" ++ nullToString parsed.hostname ++ urlPath
        ++ "/Brave-" ++ version ++ ".dmg")
      "Brave dmg not found"

/-- Lines 93-102: the body of the loop over the manifest entries. -/
def verifyEntry (parse : String → ParsedUrl) (json : Entry) : Run :=
  match json.url, json.version with
  | some url, some version =>
    if truthy (some url) && truthy (some version) then
      (verifyUrl url (url ++ " could not be found")).andThen
        (if matchesOsx url then dmgCheck parse url version else Run.skip)
    else Run.skip
  | _, _ => Run.skip

/-- The method `Array.prototype.forEach`: an exception thrown by the body ends the loop. -/
def forEach (body : Entry → Run) : List Entry → Run
  | [] => Run.skip
  | json :: rest => (body json).andThen (forEach body rest)

/-- Line 106: `process.env.BASE_URL || '...'`. -/
def baseUrl (env : Env) : String :=
  if truthy env.BASE_URL then undefinedToString env.BASE_URL
  else "https://brave-download.global.ssl.fastly.net/multi-channel/releases"

/-- Line 107: `process.env.BASE_LEGACY_URL || '...'`. -/
def baseLegacyUrl (env : Env) : String :=
  if truthy env.BASE_LEGACY_URL then undefinedToString env.BASE_LEGACY_URL
  else "https://brave-download.global.ssl.fastly.net/releases"

/-- Line 110: the first value of the variable `winx64_url`, the channel's winx64 directory. -/
def winx64_url (args : Args) (env : Env) : String :=
  baseUrl env ++ "/" ++ args.channel ++ "/" ++ "winx64"

/-- Line 125: the value of the variable `winia32_url`, the channel's winia32 directory. -/
def winia32_url (args : Args) (env : Env) : String :=
  baseUrl env ++ "/" ++ args.channel ++ "/" ++ "winia32"

/-- Line 140: the second value of the variable `winx64_url`, the legacy winx64 directory. -/
def legacy_winx64_url (env : Env) : String :=
  baseLegacyUrl env ++ "/" ++ "winx64"

/-- Lines 111-121, 126-136, 141-151: the body shared by the three `RELEASES` callbacks,
called with `(err, response)`; `dir` is the value that the variable the callback reads
(`winx64_url` or `winia32_url`) holds when the callback runs. -/
def releasesCallback (dir : String) (err : Option String) (response : Response) : Run :=
  match err with
  | some _ => ⟨[], [], .assertionError⟩
  | none =>
    (Run.log response.body).andThen
      (if response.statusCode = 200 then
        (Run.log ("  OK ... " ++ dir ++ "/RELEASES")).andThen
          (let filename := (jsSplit response.body ' ').get? 1
           verifyUrl (dir ++ "/" ++ undefinedToString filename)
             ("Windows update file " ++ undefinedToString filename ++ " is not available at "
               ++ dir ++ "/" ++ undefinedToString filename))
      else
        ⟨[], [], .error (dir ++ " could not be found")⟩)

/-- The variables of the manifest callback that the `RELEASES` callbacks read. Each is
declared with `var`, so the declarations of `winx64_url` at lines 110 and 140 name one
and the same variable of the enclosing function. -/
structure Scope where
  winx64_url : String
  winia32_url : String
deriving DecidableEq

/-- The values of those variables when a `RELEASES` callback runs. A callback runs only
after the manifest callback has run to its end, so `winx64_url` holds what line 140
assigned to it, the legacy directory, and no longer the value of line 110. -/
def scopeAtCallbacks (args : Args) (env : Env) : Scope :=
  let scope : Scope := { winx64_url := winx64_url args env, winia32_url := winia32_url args env }
  { scope with winx64_url := legacy_winx64_url env }

/-- Lines 111-121: the callback of the fetch of the channel's winx64 `RELEASES` index
(requested at line 111 from the directory of line 110); it reads the variable
`winx64_url` when it runs. -/
def winx64ReleasesCallback (args : Args) (env : Env) (err : Option String)
    (response : Response) : Run :=
  releasesCallback (scopeAtCallbacks args env).winx64_url err response

/-- Lines 126-136: the callback of the winia32 `RELEASES` fetch; it reads `winia32_url`. -/
def winia32ReleasesCallback (args : Args) (env : Env) (err : Option String)
    (response : Response) : Run :=
  releasesCallback (scopeAtCallbacks args env).winia32_url err response

/-- Lines 141-151: the callback of the legacy winx64 `RELEASES` fetch; it reads
`winx64_url`. -/
def legacyReleasesCallback (args : Args) (env : Env) (err : Option String)
    (response : Response) : Run :=
  releasesCallback (scopeAtCallbacks args env).winx64_url err response

/-- Lines 109-151: the checks of the Windows directories. -/
def windowsChecks (args : Args) (env : Env) : Run :=
  (⟨[], [.get (winx64_url args env ++ "/RELEASES")], .normal⟩ : Run).andThen (
  (verifyUrl (winx64_url args env ++ "/BraveSetup-x64.exe") "BraveSetup-x64.exe not found").andThen (
  (⟨[], [.get (winia32_url args env ++ "/RELEASES")], .normal⟩ : Run).andThen (
  (verifyUrl (winia32_url args env ++ "/BraveSetup-ia32.exe") "BraveSetup-ia32.exe not found").andThen (
  (⟨[], [.get (legacy_winx64_url env ++ "/RELEASES")], .normal⟩ : Run)))))

/-- Lines 153-167: the checks of the version-pinned files; `versions` is the key list
of line 84 and `version` is `versions[0]`, used only in concatenations. -/
def versionedChecks (args : Args) (env : Env) (versions : List String) : Run :=
  let version := undefinedToString (versions.get? 0)
  let winx64_version_url := baseUrl env ++ "/" ++ args.channel ++ "/" ++ version ++ "/winx64/"
  let winia32_version_url := baseUrl env ++ "/" ++ args.channel ++ "/" ++ version ++ "/winia32/"
  let linux64_version_url := baseUrl env ++ "/" ++ args.channel ++ "/" ++ version
  (verifyUrl (winx64_version_url ++ "BraveSetup-x64.exe")
    ("Versioned BraveSetup-x64.exe not found for winx64 version " ++ version)).andThen (
  (verifyUrl (winia32_version_url ++ "BraveSetup-ia32.exe")
    ("Versioned BraveSetup-ia32.exe not found for ia32 version " ++ version)).andThen (
  (verifyUrl (linux64_version_url ++ "/debian64/brave_" ++ version ++ "_amd64.deb")
    ("debian file not found for version " ++ version)).andThen (
  (verifyUrl (linux64_version_url ++ "/fedora64/brave-" ++ version ++ ".x86_64.rpm")
    ("fedora file not found for version " ++ version)))))

/-- Lines 84-88: the version-agreement step on the key list. -/
def versionAgreement (versions : List String) : Run :=
  (if versions.length ≠ 1 then
    nope ("Multiple most recent versions " ++ jsJoin versions ",")
  else Run.skip).andThen (Run.log "OK")

/-- Lines 76-167: the manifest callback after its guard on the fetch, on the manifest
body `body`; `parse` is `url.parse`. -/
def onManifest (parse : String → ParsedUrl) (args : Args) (env : Env) (body : List Entry) : Run :=
  let contents := body
  let versions := versionKeys contents
  (versionAgreement versions).andThen (
  (Run.log "[2] Verifying file location and status").andThen (
  (forEach (verifyEntry parse) contents).andThen (
  (windowsChecks args env).andThen (
  versionedChecks args env versions))))

/-! ## Definitions that follow the words of the specification -/

/-- Follows the spec's words "whitespace-delimited token": the maximal runs of
non-whitespace characters of `cs`, in order; `cur` is the run being read, reversed. -/
def whitespaceTokensAux : List Char → List Char → List (List Char)
  | [], cur => if cur.isEmpty then [] else [cur.reverse]
  | c :: cs, cur =>
    if c.isWhitespace then
      (if cur.isEmpty then [] else [cur.reverse]) ++ whitespaceTokensAux cs []
    else whitespaceTokensAux cs (c :: cur)

/-- Follows the spec's words: "the second whitespace-delimited token" of a body. -/
def specSecondToken (body : String) : Option String :=
  ((whitespaceTokensAux body.data []).get? 1).map String.mk

/-- Follows the spec's words: the url "has a path segment that is the macOS marker". -/
def specHasOsxSegment (url : String) : Bool :=
  match (urlParse url).pathname with
  | some p => decide ("osx" ∈ jsSplit p '/')
  | none => false

/-- Follows the spec's words: "the entry's URL directory", the url with its last
path segment removed. -/
def specUrlDirectory (url : String) : String :=
  jsJoin ((jsSplit url '/').dropLast) "/"

/-! ## Sequencing lemmas -/

@[simp] theorem andThen_skip_left (k : Run) : Run.skip.andThen k = k := by
  cases k; rfl

@[simp] theorem andThen_log (line : String) (k : Run) :
    (Run.log line).andThen k = ⟨line :: k.stdout, k.requests, k.completion⟩ := rfl

@[simp] theorem andThen_verifyUrl (url msg : String) (k : Run) :
    (verifyUrl url msg).andThen k = ⟨k.stdout, .head url msg :: k.requests, k.completion⟩ := rfl

theorem andThen_of_normal {r : Run} (k : Run) (h : r.completion = .normal) :
    r.andThen k = ⟨r.stdout ++ k.stdout, r.requests ++ k.requests, k.completion⟩ := by
  simp [Run.andThen, h]

theorem andThen_of_not_normal {r : Run} (k : Run) (h : r.completion ≠ .normal) :
    r.andThen k = r := by
  unfold Run.andThen
  split
  · contradiction
  · rfl

theorem andThen_completion_normal {r k : Run} (h : (r.andThen k).completion = .normal) :
    r.completion = .normal ∧ k.completion = .normal := by
  by_cases hr : r.completion = .normal
  · rw [andThen_of_normal k hr] at h
    exact ⟨hr, h⟩
  · rw [andThen_of_not_normal k hr] at h
    exact absurd h hr


/-! ## The callback of `verifyUrl` -/

theorem ok_line_ne_status_line (url x : String) :
    "  OK ... " ++ url ≠ "HTTP Status code: " ++ x := by
  intro h
  have := congrArg String.data h
  simp at this

theorem ok_line_ne_failed_line (url x : String) :
    "  OK ... " ++ url ≠ "  FAILED ... " ++ x := by
  intro h
  have := congrArg String.data h
  simp at this

/-- C4. With no transport error, the callback of `verifyUrl` prints the OK line exactly
when the status code is 200; on another status it throws the error `msg + ' : ' + url`
exactly when warn mode is off, and in warn mode it prints the FAILED line for the url
and runs to its end. -/
theorem verifyUrlCallback_status (args : Args) (url msg : String) (response : Response) :
    (("  OK ... " ++ url) ∈ (verifyUrlCallback args url msg none response).stdout
        ↔ response.statusCode = 200)
    ∧ (response.statusCode = 200 →
        (verifyUrlCallback args url msg none response).completion = .normal)
    ∧ (response.statusCode ≠ 200 →
        ((verifyUrlCallback args url msg none response).completion = .error (msg ++ " : " ++ url)
          ↔ args.warn = false))
    ∧ (response.statusCode ≠ 200 → args.warn = true →
        ("  FAILED ... " ++ msg ++ " : " ++ url)
            ∈ (verifyUrlCallback args url msg none response).stdout
          ∧ (verifyUrlCallback args url msg none response).completion = .normal) := by
  by_cases h200 : response.statusCode = 200
  · simp [verifyUrlCallback, h200, Run.log]
  · cases hw : args.warn
    · simp [verifyUrlCallback, h200, hw, Run.log, Run.andThen, String.append_assoc,
        ok_line_ne_status_line]
    · simp [verifyUrlCallback, h200, hw, Run.log, Run.andThen, String.append_assoc,
        ok_line_ne_status_line, ok_line_ne_failed_line]

/-- C4, at a concrete input: status 404 for a url, with warn mode on. -/
theorem verifyUrlCallback_status_witness :
    (404 : Nat) ≠ 200 ∧ (⟨"dev", true⟩ : Args).warn = true
      ∧ ("  FAILED ... " ++ "not found" ++ " : " ++ "https://cdn/a")
            ∈ (verifyUrlCallback ⟨"dev", true⟩ "https://cdn/a" "not found" none ⟨404, ""⟩).stdout
      ∧ (verifyUrlCallback ⟨"dev", true⟩ "https://cdn/a" "not found" none ⟨404, ""⟩).completion
          = .normal :=
  ⟨by decide, rfl,
    (verifyUrlCallback_status ⟨"dev", true⟩ "https://cdn/a" "not found" ⟨404, ""⟩).2.2.2
      (by decide) rfl⟩

/-- C5, as stated, fails: in warn mode a check that ends in a transport error does not
print a FAILED line and does not run to its end; the assertion on `err` throws. -/
theorem transport_error_not_recorded_in_warn_mode :
    ¬ ((("  FAILED ... " ++ "Brave dmg not found" ++ " : " ++ "https://cdn/x/osx/Brave-1.0.0.dmg")
          ∈ (verifyUrlCallback ⟨"dev", true⟩ "https://cdn/x/osx/Brave-1.0.0.dmg"
              "Brave dmg not found" (some "ENOTFOUND") ⟨0, ""⟩).stdout)
        ∧ (verifyUrlCallback ⟨"dev", true⟩ "https://cdn/x/osx/Brave-1.0.0.dmg"
              "Brave dmg not found" (some "ENOTFOUND") ⟨0, ""⟩).completion = .normal) := by
  decide

/-- C5, amended. A check that ends in a transport error aborts with the assertion
failure of `assert.equal(err, null)` whatever the warn flag is: nothing is printed,
no FAILED line is recorded for the url, and no request is issued. -/
theorem verifyUrlCallback_transport_error (args : Args) (url msg e : String)
    (response : Response) :
    verifyUrlCallback args url msg (some e) response = ⟨[], [], .assertionError⟩ := rfl

/-! ## The callbacks of the `RELEASES` fetches -/

theorem scopeAtCallbacks_winx64 (args : Args) (env : Env) :
    (scopeAtCallbacks args env).winx64_url = legacy_winx64_url env := rfl

theorem scopeAtCallbacks_winia32 (args : Args) (env : Env) :
    (scopeAtCallbacks args env).winia32_url = winia32_url args env := rfl

/-- C6. For the winx64 and the winia32 `RELEASES` fetch alike, a response whose status is
not 200 makes the callback throw an error, whatever the warn flag in `args` is, and no
request (so no delta-file check) is issued by it. The error names the directory held by
the variable the callback reads: `winia32_url` for winia32, and for winx64 the directory
that line 140 has assigned to `winx64_url`. -/
theorem releases_not_found_is_fatal (args : Args) (env : Env) (response : Response)
    (h : response.statusCode ≠ 200) :
    winx64ReleasesCallback args env none response
        = ⟨[response.body], [], .error (legacy_winx64_url env ++ " could not be found")⟩
    ∧ winia32ReleasesCallback args env none response
        = ⟨[response.body], [], .error (winia32_url args env ++ " could not be found")⟩ := by
  simp [winx64ReleasesCallback, winia32ReleasesCallback, releasesCallback, h,
    scopeAtCallbacks_winx64, scopeAtCallbacks_winia32]

/-- C6, at a concrete input: status 404 with warn mode on, `BASE_URL` set to `B`. -/
theorem releases_not_found_is_fatal_witness :
    winx64ReleasesCallback ⟨"dev", true⟩ ⟨some "B", none⟩ none ⟨404, "Not Found"⟩
        = ⟨["Not Found"], [],
            .error "https://brave-download.global.ssl.fastly.net/releases/winx64 could not be found"⟩
    ∧ winia32ReleasesCallback ⟨"dev", true⟩ ⟨some "B", none⟩ none ⟨404, "Not Found"⟩
        = ⟨["Not Found"], [], .error "B/dev/winia32 could not be found"⟩ := by
  have h := releases_not_found_is_fatal ⟨"dev", true⟩ ⟨some "B", none⟩ ⟨404, "Not Found"⟩
    (by decide)
  exact ⟨by rw [h.1]; decide, by rw [h.2]; decide⟩

/-! ## The version-agreement step -/

theorem objectKeys_perm (obj : List String) : (objectKeys obj).Perm obj := by
  unfold objectKeys
  exact ((List.perm_insertionSort _ _).append_right _).trans (List.filter_append_perm _ obj)

theorem mem_setTrue {obj : List String} {k x : String} :
    x ∈ setTrue obj k ↔ x ∈ obj ∨ (x = k ∧ k ≠ "__proto__") := by
  unfold setTrue
  split
  · rename_i h
    simp [h]
  · rename_i h
    split
    · rename_i hk
      constructor
      · exact Or.inl
      · rintro (hx | ⟨rfl, -⟩)
        · exact hx
        · exact hk
    · simp [h]

theorem nodup_setTrue {obj : List String} (k : String) (h : obj.Nodup) :
    (setTrue obj k).Nodup := by
  unfold setTrue
  split
  · exact h
  · split
    · exact h
    · rename_i hk
      exact List.nodup_append.2 ⟨h, List.nodup_singleton k, by simpa using hk⟩

theorem mem_foldl_setTrue (f : Entry → String) (contents : List Entry) (init : List String)
    (x : String) :
    x ∈ contents.foldl (fun versions json => setTrue versions (f json)) init
      ↔ x ∈ init ∨ (x ≠ "__proto__" ∧ ∃ json ∈ contents, f json = x) := by
  induction contents generalizing init with
  | nil => simp
  | cons j js ih =>
    rw [List.foldl_cons, ih, mem_setTrue]
    constructor
    · rintro ((h | ⟨rfl, hk⟩) | ⟨hx, j2, hj2, rfl⟩)
      · exact Or.inl h
      · exact Or.inr ⟨hk, j, List.mem_cons_self _ _, rfl⟩
      · exact Or.inr ⟨hx, j2, List.mem_cons_of_mem _ hj2, rfl⟩
    · rintro (h | ⟨hx, j2, hj2, rfl⟩)
      · exact Or.inl (Or.inl h)
      · rcases List.mem_cons.1 hj2 with rfl | hj2
        · exact Or.inl (Or.inr ⟨rfl, hx⟩)
        · exact Or.inr ⟨hx, j2, hj2, rfl⟩

theorem nodup_foldl_setTrue (f : Entry → String) (contents : List Entry) (init : List String)
    (h : init.Nodup) :
    (contents.foldl (fun versions json => setTrue versions (f json)) init).Nodup := by
  induction contents generalizing init with
  | nil => exact h
  | cons j js ih => exact ih _ (nodup_setTrue _ h)

/-- The key list of line 84 names a string exactly when some entry's version reads as that
string and the string is not `__proto__`. -/
theorem mem_versionKeys (contents : List Entry) (x : String) :
    x ∈ versionKeys contents
      ↔ x ≠ "__proto__" ∧ ∃ json ∈ contents, undefinedToString json.version = x := by
  unfold versionKeys
  rw [(objectKeys_perm _).mem_iff, mem_foldl_setTrue]
  simp

/-- The key list of line 84 names no string twice. -/
theorem nodup_versionKeys (contents : List Entry) : (versionKeys contents).Nodup := by
  unfold versionKeys
  exact (objectKeys_perm _).nodup_iff.2 (nodup_foldl_setTrue _ _ _ List.nodup_nil)

theorem eq_singleton_of_nodup {l : List String} {v : String} (hn : l.Nodup) (hv : v ∈ l)
    (hall : ∀ x ∈ l, x = v) : l = [v] := by
  match l, hn, hv, hall with
  | [a], _, hv, _ =>
    have h : v = a := by simpa using hv
    rw [h]
  | a :: b :: t, hn, _, hall =>
    have ha := hall a (by simp)
    have hb := hall b (by simp)
    simp [ha, hb] at hn

/-- When every entry of a non-empty manifest carries the same version `v`, and `v` is not
the name `__proto__`, the key list of line 84 is `[v]`. -/
theorem versionKeys_of_equal_versions (contents : List Entry) (v : String)
    (hne : contents ≠ []) (hall : ∀ json ∈ contents, json.version = some v)
    (hv : v ≠ "__proto__") : versionKeys contents = [v] := by
  apply eq_singleton_of_nodup (nodup_versionKeys contents)
  · rw [mem_versionKeys]
    obtain ⟨j, hj⟩ := List.exists_mem_of_ne_nil contents hne
    exact ⟨hv, j, hj, by simp [hall j hj, undefinedToString]⟩
  · intro x hx
    obtain ⟨-, j, hj, rfl⟩ := (mem_versionKeys contents x).1 hx
    simp [hall j hj, undefinedToString]

/-- With that key list the version-agreement step runs to its end, printing `OK`, and
`versions[0]` is `v`. -/
theorem versionAgreement_of_equal_versions (contents : List Entry) (v : String)
    (hne : contents ≠ []) (hall : ∀ json ∈ contents, json.version = some v)
    (hv : v ≠ "__proto__") :
    versionAgreement (versionKeys contents) = Run.log "OK"
      ∧ (versionKeys contents).get? 0 = some v := by
  rw [versionKeys_of_equal_versions contents v hne hall hv]
  exact ⟨rfl, rfl⟩

/-- Whenever the key list of line 84 does not have exactly one member, the manifest
callback ends in `nope` at the version-agreement step, with the message that lists the
keys: `OK` is not printed and no request, neither a `verifyUrl` check nor a `RELEASES`
fetch, is issued. -/
theorem onManifest_of_length_ne_one (parse : String → ParsedUrl) (args : Args) (env : Env)
    (body : List Entry) (h : (versionKeys body).length ≠ 1) :
    onManifest parse args env body
      = ⟨[], [], .halted ("Multiple most recent versions " ++ jsJoin (versionKeys body) ",")⟩ := by
  simp [onManifest, versionAgreement, h, nope, Run.andThen]

/-- The manifest of the spec's sixth scenario, whose platforms report `1.0.0` and
`1.0.1`, ends so. -/
theorem onManifest_of_length_ne_one_example :
    onManifest urlParse ⟨"dev", false⟩ ⟨none, none⟩
        [⟨some "1.0.0", some "https://cdn/x/osx/Brave.dmg"⟩,
         ⟨some "1.0.1", some "https://cdn/x/winx64/Brave.exe"⟩]
      = ⟨[], [], .halted ("Multiple most recent versions " ++ "1.0.0,1.0.1")⟩ := by
  rw [onManifest_of_length_ne_one urlParse ⟨"dev", false⟩ ⟨none, none⟩
    [⟨some "1.0.0", some "https://cdn/x/osx/Brave.dmg"⟩,
     ⟨some "1.0.1", some "https://cdn/x/winx64/Brave.exe"⟩] (by decide)]
  decide

/-- An empty manifest has an empty key list. -/
theorem versionKeys_nil : versionKeys [] = [] := rfl

/-- When two entries carry different versions, neither of them `__proto__`, the key list
of line 84 has at least two members. -/
theorem two_le_length_versionKeys (contents : List Entry) (a b : Entry) (va vb : String)
    (ha : a ∈ contents) (hb : b ∈ contents) (hva : a.version = some va)
    (hvb : b.version = some vb) (hab : va ≠ vb) (hpa : va ≠ "__proto__")
    (hpb : vb ≠ "__proto__") : 2 ≤ (versionKeys contents).length := by
  have h1 : va ∈ versionKeys contents :=
    (mem_versionKeys _ _).2 ⟨hpa, a, ha, by simp [hva, undefinedToString]⟩
  have h2 : vb ∈ versionKeys contents :=
    (mem_versionKeys _ _).2 ⟨hpb, b, hb, by simp [hvb, undefinedToString]⟩
  match hl : versionKeys contents, h1, h2 with
  | [], h1, _ => simp at h1
  | [x], h1, h2 =>
    simp at h1 h2
    exact absurd (h1.trans h2.symm) hab
  | _ :: _ :: _, _, _ => simp


/-- When two entries carry different versions, neither of them `__proto__`, the manifest
callback ends in `nope` without a request, and the versions named in its message are the
key list: it names no string twice, and names exactly the strings that some entry's
version reads as. -/
theorem onManifest_of_two_versions (parse : String → ParsedUrl) (args : Args) (env : Env)
    (body : List Entry) (a b : Entry) (va vb : String)
    (ha : a ∈ body) (hb : b ∈ body) (hva : a.version = some va)
    (hvb : b.version = some vb) (hab : va ≠ vb) (hpa : va ≠ "__proto__")
    (hpb : vb ≠ "__proto__") :
    onManifest parse args env body
        = ⟨[], [], .halted ("Multiple most recent versions " ++ jsJoin (versionKeys body) ",")⟩
      ∧ (versionKeys body).Nodup
      ∧ ∀ x, x ∈ versionKeys body
          ↔ x ≠ "__proto__" ∧ ∃ json ∈ body, undefinedToString json.version = x := by
  have h2 := two_le_length_versionKeys body a b va vb ha hb hva hvb hab hpa hpb
  have h1 : (versionKeys body).length ≠ 1 := by omega
  exact ⟨by simp [onManifest, versionAgreement, h1, nope, Run.andThen], nodup_versionKeys body,
    mem_versionKeys body⟩

/-- C1, at the failing input: every entry of the one-entry manifest carries the version
`__proto__`, yet the key list of line 84 is empty, so the version-agreement step calls
`nope` and no agreed version is yielded. -/
theorem agreement_fails_on_proto_version :
    versionKeys [⟨some "__proto__", some "https://cdn/x/osx/Brave.zip"⟩] = []
    ∧ onManifest urlParse ⟨"dev", false⟩ ⟨none, none⟩
        [⟨some "__proto__", some "https://cdn/x/osx/Brave.zip"⟩]
      = nope "Multiple most recent versions " := by
  decide

/-- C2, at the failing input: the entries span the two versions `1.0.0` and `__proto__`,
yet the key list of line 84 is `["1.0.0"]`, so the version-agreement step does not fail
and names no list of versions. -/
theorem mismatch_with_proto_version_passes :
    versionKeys [⟨some "1.0.0", some "https://cdn/x/osx/Brave.zip"⟩,
        ⟨some "__proto__", some "https://cdn/x/winx64/Brave.exe"⟩] = ["1.0.0"]
    ∧ versionAgreement (versionKeys [⟨some "1.0.0", some "https://cdn/x/osx/Brave.zip"⟩,
        ⟨some "__proto__", some "https://cdn/x/winx64/Brave.exe"⟩]) = Run.log "OK" := by
  decide

/-- C3, at the failing input: the manifest holds the two distinct versions `__proto__` and
`1.0.1`, so its set of distinct versions does not have exactly one member, yet the key
list of line 84 is `["1.0.1"]` and the run does not halt at the version-agreement step: it
runs to its end and issues eleven requests, the first of them the check of the first
entry's url and another the fetch of the winx64 `RELEASES` index. -/
theorem run_continues_with_proto_version :
    ([⟨some "__proto__", some "https://cdn/x/linux64/Brave.tar.bz2"⟩,
      ⟨some "1.0.1", some "https://cdn/x/winx64/Brave.exe"⟩] : List Entry).map Entry.version
      = [some "__proto__", some "1.0.1"]
    ∧ versionKeys [⟨some "__proto__", some "https://cdn/x/linux64/Brave.tar.bz2"⟩,
        ⟨some "1.0.1", some "https://cdn/x/winx64/Brave.exe"⟩] = ["1.0.1"]
    ∧ (onManifest urlParse ⟨"dev", false⟩ ⟨none, none⟩
        [⟨some "__proto__", some "https://cdn/x/linux64/Brave.tar.bz2"⟩,
         ⟨some "1.0.1", some "https://cdn/x/winx64/Brave.exe"⟩]).completion = .normal
    ∧ (onManifest urlParse ⟨"dev", false⟩ ⟨none, none⟩
        [⟨some "__proto__", some "https://cdn/x/linux64/Brave.tar.bz2"⟩,
         ⟨some "1.0.1", some "https://cdn/x/winx64/Brave.exe"⟩]).requests.head?
      = some (.head "https://cdn/x/linux64/Brave.tar.bz2"
          "https://cdn/x/linux64/Brave.tar.bz2 could not be found")
    ∧ Request.get "https://brave-download.global.ssl.fastly.net/multi-channel/releases/dev/winx64/RELEASES"
      ∈ (onManifest urlParse ⟨"dev", false⟩ ⟨none, none⟩
        [⟨some "__proto__", some "https://cdn/x/linux64/Brave.tar.bz2"⟩,
         ⟨some "1.0.1", some "https://cdn/x/winx64/Brave.exe"⟩]).requests
    ∧ (onManifest urlParse ⟨"dev", false⟩ ⟨none, none⟩
        [⟨some "__proto__", some "https://cdn/x/linux64/Brave.tar.bz2"⟩,
         ⟨some "1.0.1", some "https://cdn/x/winx64/Brave.exe"⟩]).requests.length = 11 := by
  decide

/-! ## The checks derived from a manifest entry -/

/-- C7, at the failing input: for the entry with version `1.2.3` and url
`https://cdn:8080/x/osx/Brave.zip` the derived disk-image target has lost the port, while
the entry's URL directory followed by `/Brave-1.2.3.dmg` keeps it. -/
theorem dmg_target_drops_port :
    (verifyEntry urlParse ⟨some "1.2.3", some "https://cdn:8080/x/osx/Brave.zip"⟩).requests
      = [.head "https://cdn:8080/x/osx/Brave.zip"
            "https://cdn:8080/x/osx/Brave.zip could not be found",
         .head "https://cdn/x/osx/Brave-1.2.3.dmg" "Brave dmg not found"]
    ∧ specUrlDirectory "https://cdn:8080/x/osx/Brave.zip" ++ "/Brave-" ++ "1.2.3" ++ ".dmg"
      = "https://cdn:8080/x/osx/Brave-1.2.3.dmg" := by
  decide

/-- C10, as stated, fails: the url `https://cdn/x/winx64/osxfoo.exe` has no path segment
that is `osx`, yet a disk-image target is derived from the entry. -/
theorem dmg_derived_without_osx_segment :
    ¬ ((∃ target, Request.head target "Brave dmg not found"
          ∈ (verifyEntry urlParse ⟨some "1.0.0", some "https://cdn/x/winx64/osxfoo.exe"⟩).requests)
        ↔ specHasOsxSegment "https://cdn/x/winx64/osxfoo.exe" = true) := by
  intro h
  have h2 : specHasOsxSegment "https://cdn/x/winx64/osxfoo.exe" = true :=
    h.1 ⟨"https://cdn/x/winx64/Brave-1.0.0.dmg", by decide⟩
  revert h2
  decide

/-- C10, amended. For an entry whose url and version are both set (present and non-empty)
the entry's own url is checked first; when `url.parse` gives the url a path, a
disk-image target is derived as well exactly when the text `osx` occurs somewhere in the
url; an entry whose url or version is missing or empty produces no request. -/
theorem verifyEntry_requests (parse : String → ParsedUrl) (json : Entry) :
    (∀ url version, json.url = some url → json.version = some version →
        url ≠ "" → version ≠ "" →
        (∃ more, (verifyEntry parse json).requests
            = .head url (url ++ " could not be found") :: more)
        ∧ ((parse url).path ≠ none →
            ((∃ target, (verifyEntry parse json).requests
                = [.head url (url ++ " could not be found"),
                   .head target "Brave dmg not found"])
              ↔ "osx".data <:+: url.data)
            ∧ (¬ "osx".data <:+: url.data →
                (verifyEntry parse json).requests
                  = [.head url (url ++ " could not be found")])))
    ∧ ((truthy json.url = false ∨ truthy json.version = false) →
        (verifyEntry parse json).requests = []) := by
  obtain ⟨version, url⟩ := json
  constructor
  · intro u v hu hv hu0 hv0
    simp only at hu hv
    subst hu hv
    by_cases hosx : "osx".data <:+: u.data
    · cases hp : (parse u).path with
      | none => simp [verifyEntry, truthy, hu0, hv0, matchesOsx, hosx, dmgCheck, hp, verifyUrl,
          Run.andThen]
      | some p => simp [verifyEntry, truthy, hu0, hv0, matchesOsx, hosx, dmgCheck, hp, verifyUrl,
          Run.andThen]
    · simp [verifyEntry, truthy, hu0, hv0, matchesOsx, hosx, Run.skip]
  · intro h
    cases url <;> cases version <;> simp [verifyEntry, truthy] at h ⊢
    · simp [Run.skip]
    · simp [Run.skip]
    · simp [Run.skip]
    · rcases h with h | h <;> simp [h, Run.skip]


/-- C10 amended, at a concrete input: the macOS entry of the spec's end-to-end scenario. -/
theorem verifyEntry_requests_witness :
    ∃ target, (verifyEntry urlParse ⟨some "1.0.0", some "https://cdn/x/osx/Brave.dmg"⟩).requests
      = [.head "https://cdn/x/osx/Brave.dmg" ("https://cdn/x/osx/Brave.dmg" ++ " could not be found"),
         .head target "Brave dmg not found"] :=
  ((((verifyEntry_requests urlParse ⟨some "1.0.0", some "https://cdn/x/osx/Brave.dmg"⟩).1
      "https://cdn/x/osx/Brave.dmg" "1.0.0" rfl rfl (by decide) (by decide)).2
      (by decide)).1).2 (by decide)

/-! ## The delta-update file named by a `RELEASES` index -/

theorem splitChars_of_not_mem (sep : Char) (b : List Char) (h : sep ∉ b) :
    splitChars sep b = [b] := by
  induction b with
  | nil => rfl
  | cons c cs ih =>
    have hc : c ≠ sep := fun e => h (e ▸ List.mem_cons_self _ _)
    have hcs : sep ∉ cs := fun m => h (List.mem_cons_of_mem _ m)
    simp [splitChars, hc, ih hcs]

theorem splitChars_append_sep (sep : Char) (a rest : List Char) (h : sep ∉ a) :
    splitChars sep (a ++ sep :: rest) = a :: splitChars sep rest := by
  induction a with
  | nil => simp [splitChars]
  | cons c cs ih =>
    have hc : c ≠ sep := fun e => h (e ▸ List.mem_cons_self _ _)
    have hcs : sep ∉ cs := fun m => h (List.mem_cons_of_mem _ m)
    simp [splitChars, hc, ih hcs]

/-- The second piece of `body.split(' ')` is the text between the first and the second
space of the body. -/
theorem jsSplit_second (a b rest : String) (ha : ' ' ∉ a.data) (hb : ' ' ∉ b.data)
    (hrest : rest = "" ∨ ∃ r, rest = " " ++ r) :
    (jsSplit (a ++ " " ++ b ++ rest) ' ').get? 1 = some b := by
  rcases hrest with rfl | ⟨r, rfl⟩
  · have h : (a ++ " " ++ b ++ "").data = a.data ++ ' ' :: b.data := by simp
    simp [jsSplit, h, splitChars_append_sep _ _ _ ha, splitChars_of_not_mem _ _ hb]
  · have h : (a ++ " " ++ b ++ (" " ++ r)).data = a.data ++ ' ' :: (b.data ++ ' ' :: r.data) := by
      simp
    simp [jsSplit, h, splitChars_append_sep _ _ _ ha, splitChars_append_sep _ _ _ hb]

/-- For a body `a + ' ' + b + rest` answered with status 200, where `a` and `b` hold no
space and `rest` is empty or begins with a space, the shared body of the `RELEASES`
callbacks prints the body and an OK line and issues one check, of `dir + '/' + b`. -/
theorem releasesCallback_of_spaced_body (dir a b rest : String) (response : Response)
    (ha : ' ' ∉ a.data) (hb : ' ' ∉ b.data) (hrest : rest = "" ∨ ∃ r, rest = " " ++ r)
    (hstatus : response.statusCode = 200) (hbody : response.body = a ++ " " ++ b ++ rest) :
    releasesCallback dir none response
      = ⟨[response.body, "  OK ... " ++ dir ++ "/RELEASES"],
         [.head (dir ++ "/" ++ b)
            ("Windows update file " ++ b ++ " is not available at " ++ dir ++ "/" ++ b)],
         .normal⟩ := by
  have h2 := jsSplit_second a b rest ha hb hrest
  rw [← hbody] at h2
  simp only [releasesCallback, h2, hstatus, undefinedToString, if_true, andThen_log]
  rfl

theorem get_mem_windowsChecks (args : Args) (env : Env) :
    Request.get (winx64_url args env ++ "/RELEASES") ∈ (windowsChecks args env).requests
    ∧ Request.get (winia32_url args env ++ "/RELEASES") ∈ (windowsChecks args env).requests
    ∧ Request.get (legacy_winx64_url env ++ "/RELEASES") ∈ (windowsChecks args env).requests := by
  simp [windowsChecks, verifyUrl, Run.andThen]

/-- C8, as stated, fails: the winia32 index is fetched from `https://cdn/dev/winia32` and
answered with the body `abc  1.2.3-full.nupkg def`, with two spaces after its first token;
the parsed filename is the empty string, so the check the callback derives is not the one
of the directory followed by the second whitespace-delimited token `1.2.3-full.nupkg`. -/
theorem filename_is_not_second_token :
    ¬ ∃ filename, specSecondToken "abc  1.2.3-full.nupkg def" = some filename
        ∧ (winia32ReleasesCallback ⟨"dev", false⟩ ⟨some "https://cdn", none⟩ none
            ⟨200, "abc  1.2.3-full.nupkg def"⟩).requests
          = [.head ("https://cdn/dev/winia32" ++ "/" ++ filename)
              ("Windows update file " ++ filename ++ " is not available at "
                ++ "https://cdn/dev/winia32" ++ "/" ++ filename)] := by
  rintro ⟨filename, h1, h2⟩
  have h3 : (winia32ReleasesCallback ⟨"dev", false⟩ ⟨some "https://cdn", none⟩ none
      ⟨200, "abc  1.2.3-full.nupkg def"⟩).requests
        = [.head "https://cdn/dev/winia32/"
            "Windows update file  is not available at https://cdn/dev/winia32/"] := by decide
  have h4 : specSecondToken "abc  1.2.3-full.nupkg def" = some "1.2.3-full.nupkg" := by decide
  rw [h4] at h1
  rw [h3, ← Option.some.inj h1] at h2
  revert h2
  decide

/-- C8, amended. For the winia32 index and for the legacy winx64 index, fetched from the
directory `dir` and answered with status 200 and a body that holds a space, the parsed
delta-update filename is the text between the first space of the body and its second
space (or its end): for a body `a + ' ' + b + rest`, where `a` and `b` hold no space and
`rest` is empty or begins with a space, the callback issues exactly one check, of the
target `dir + '/' + b` in the directory the index was fetched from. -/
theorem releases_index_target (args : Args) (env : Env) (a b rest : String)
    (response : Response)
    (ha : ' ' ∉ a.data) (hb : ' ' ∉ b.data) (hrest : rest = "" ∨ ∃ r, rest = " " ++ r)
    (hstatus : response.statusCode = 200) (hbody : response.body = a ++ " " ++ b ++ rest) :
    (Request.get (winia32_url args env ++ "/RELEASES") ∈ (windowsChecks args env).requests
      ∧ winia32ReleasesCallback args env none response
        = ⟨[response.body, "  OK ... " ++ winia32_url args env ++ "/RELEASES"],
           [.head (winia32_url args env ++ "/" ++ b)
              ("Windows update file " ++ b ++ " is not available at "
                ++ winia32_url args env ++ "/" ++ b)],
           .normal⟩)
    ∧ (Request.get (legacy_winx64_url env ++ "/RELEASES") ∈ (windowsChecks args env).requests
      ∧ legacyReleasesCallback args env none response
        = ⟨[response.body, "  OK ... " ++ legacy_winx64_url env ++ "/RELEASES"],
           [.head (legacy_winx64_url env ++ "/" ++ b)
              ("Windows update file " ++ b ++ " is not available at "
                ++ legacy_winx64_url env ++ "/" ++ b)],
           .normal⟩) :=
  ⟨⟨(get_mem_windowsChecks args env).2.1,
      releasesCallback_of_spaced_body _ a b rest response ha hb hrest hstatus hbody⟩,
    ⟨(get_mem_windowsChecks args env).2.2,
      releasesCallback_of_spaced_body _ a b rest response ha hb hrest hstatus hbody⟩⟩

/-- C8 amended, at the body of the spec's example, answered for the winia32 index of the
channel `dev` under `https://cdn`: the parsed filename is `1.2.3-full.nupkg` and the
target is the index's directory followed by `/1.2.3-full.nupkg`. -/
theorem releases_index_target_witness :
    Request.get "https://cdn/dev/winia32/RELEASES"
        ∈ (windowsChecks ⟨"dev", false⟩ ⟨some "https://cdn", none⟩).requests
    ∧ (winia32ReleasesCallback ⟨"dev", false⟩ ⟨some "https://cdn", none⟩ none
        ⟨200, "abc 1.2.3-full.nupkg def"⟩).requests
      = [.head "https://cdn/dev/winia32/1.2.3-full.nupkg"
          "Windows update file 1.2.3-full.nupkg is not available at https://cdn/dev/winia32/1.2.3-full.nupkg"] := by
  have h := (releases_index_target ⟨"dev", false⟩ ⟨some "https://cdn", none⟩ "abc"
    "1.2.3-full.nupkg" " def" ⟨200, "abc 1.2.3-full.nupkg def"⟩ (by decide) (by decide)
    (Or.inr ⟨"def", by decide⟩) rfl (by decide)).1
  refine ⟨by decide, ?_⟩
  rw [h.2]
  decide

/-- The callback of the channel's winx64 index does not stay in the directory of its
index: the index is fetched from `https://cdn/dev/winx64`, and for the body of the spec's
example the callback reports on, and derives its check in, the legacy directory. -/
theorem winx64_callback_reads_legacy_directory :
    Request.get "https://cdn/dev/winx64/RELEASES"
        ∈ (windowsChecks ⟨"dev", false⟩ ⟨some "https://cdn", none⟩).requests
    ∧ winx64ReleasesCallback ⟨"dev", false⟩ ⟨some "https://cdn", none⟩ none
        ⟨200, "abc 1.2.3-full.nupkg def"⟩
      = ⟨["abc 1.2.3-full.nupkg def",
          "  OK ... https://brave-download.global.ssl.fastly.net/releases/winx64/RELEASES"],
         [.head "https://brave-download.global.ssl.fastly.net/releases/winx64/1.2.3-full.nupkg"
            "Windows update file 1.2.3-full.nupkg is not available at https://brave-download.global.ssl.fastly.net/releases/winx64/1.2.3-full.nupkg"],
         .normal⟩ := by
  decide

/-! ## The version-pinned checks -/

theorem windowsChecks_completion (args : Args) (env : Env) :
    (windowsChecks args env).completion = .normal := rfl

/-- C9. When the version-agreement step yields the version `v` and the manifest callback
runs to its end, the last four checks it issues are the version-pinned ones: the two
installers in `base/channel/v/winx64/` and `base/channel/v/winia32/`, and the Debian and
Fedora packages, whose urls begin with `base/channel/v/` and end with the package's
file name. -/
theorem versioned_targets (parse : String → ParsedUrl) (args : Args) (env : Env)
    (body : List Entry) (v : String) (hv : versionKeys body = [v])
    (hn : (onManifest parse args env body).completion = .normal) :
    ∃ earlier, (onManifest parse args env body).requests = earlier ++
      [.head (baseUrl env ++ "/" ++ args.channel ++ "/" ++ v ++ "/winx64/" ++ "BraveSetup-x64.exe")
          ("Versioned BraveSetup-x64.exe not found for winx64 version " ++ v),
       .head (baseUrl env ++ "/" ++ args.channel ++ "/" ++ v ++ "/winia32/" ++ "BraveSetup-ia32.exe")
          ("Versioned BraveSetup-ia32.exe not found for ia32 version " ++ v),
       .head (baseUrl env ++ "/" ++ args.channel ++ "/" ++ v ++ "/" ++ "debian64/"
            ++ ("brave_" ++ v ++ "_amd64.deb"))
          ("debian file not found for version " ++ v),
       .head (baseUrl env ++ "/" ++ args.channel ++ "/" ++ v ++ "/" ++ "fedora64/"
            ++ ("brave-" ++ v ++ ".x86_64.rpm"))
          ("fedora file not found for version " ++ v)] := by
  have hd : "/debian64/brave_" = "/" ++ "debian64/" ++ "brave_" := by decide
  have hf : "/fedora64/brave-" = "/" ++ "fedora64/" ++ "brave-" := by decide
  unfold onManifest at hn ⊢
  simp only [hv] at hn ⊢
  have hva : versionAgreement [v] = Run.log "OK" := rfl
  rw [hva] at hn ⊢
  simp only [andThen_log] at hn ⊢
  obtain ⟨hfe, -⟩ := andThen_completion_normal hn
  rw [andThen_of_normal _ hfe, andThen_of_normal _ (windowsChecks_completion args env)]
  refine ⟨(forEach (verifyEntry parse) body).requests ++ (windowsChecks args env).requests, ?_⟩
  simp only [versionedChecks, List.get?, undefinedToString, andThen_verifyUrl, verifyUrl,
    List.append_assoc, List.append_cancel_left_eq]
  rw [hd, hf]
  simp only [String.append_assoc]
  rfl

/-- C9, at the manifest of the spec's end-to-end scenario, whose agreed version is `1.0.0`. -/
theorem versioned_targets_witness :
    ∃ earlier, (onManifest urlParse ⟨"dev", false⟩ ⟨some "https://cdn", none⟩
        [⟨some "1.0.0", some "https://cdn/x/osx/Brave.dmg"⟩,
         ⟨some "1.0.0", some "https://cdn/x/winx64/Brave.exe"⟩]).requests = earlier ++
      [.head ("https://cdn" ++ "/" ++ "dev" ++ "/" ++ "1.0.0" ++ "/winx64/" ++ "BraveSetup-x64.exe")
          ("Versioned BraveSetup-x64.exe not found for winx64 version " ++ "1.0.0"),
       .head ("https://cdn" ++ "/" ++ "dev" ++ "/" ++ "1.0.0" ++ "/winia32/" ++ "BraveSetup-ia32.exe")
          ("Versioned BraveSetup-ia32.exe not found for ia32 version " ++ "1.0.0"),
       .head ("https://cdn" ++ "/" ++ "dev" ++ "/" ++ "1.0.0" ++ "/" ++ "debian64/"
            ++ ("brave_" ++ "1.0.0" ++ "_amd64.deb"))
          ("debian file not found for version " ++ "1.0.0"),
       .head ("https://cdn" ++ "/" ++ "dev" ++ "/" ++ "1.0.0" ++ "/" ++ "fedora64/"
            ++ ("brave-" ++ "1.0.0" ++ ".x86_64.rpm"))
          ("fedora file not found for version " ++ "1.0.0")] :=
  versioned_targets urlParse ⟨"dev", false⟩ ⟨some "https://cdn", none⟩
    [⟨some "1.0.0", some "https://cdn/x/osx/Brave.dmg"⟩,
     ⟨some "1.0.0", some "https://cdn/x/winx64/Brave.exe"⟩] "1.0.0" (by decide) (by decide)


/-! ## Where the derived disk-image target is the URL directory -/

theorem splitChars_ne_nil (sep : Char) (cs : List Char) : splitChars sep cs ≠ [] := by
  induction cs with
  | nil => simp [splitChars]
  | cons c cs ih =>
    unfold splitChars
    split
    · simp
    · split
      · simp
      · simp

theorem splitChars_append_sep_general (sep : Char) (u w : List Char) :
    splitChars sep (u ++ sep :: w) = splitChars sep u ++ splitChars sep w := by
  induction u with
  | nil => simp [splitChars]
  | cons c cs ih =>
    by_cases hc : c = sep
    · simp [splitChars, hc, ← ih]
    · cases hs : splitChars sep cs with
      | nil => exact absurd hs (splitChars_ne_nil sep cs)
      | cons w0 ws =>
        simp [splitChars, hc, ih, hs]

theorem data_intercalate_go (acc sep : String) (l : List String) :
    (String.intercalate.go acc sep l).data
      = acc.data ++ (l.flatMap (fun a => sep.data ++ a.data)) := by
  induction l generalizing acc with
  | nil => simp [String.intercalate.go]
  | cons a as ih => simp [String.intercalate.go, ih]

theorem bind_sep_splitChars (sep : Char) (u : List Char) :
    ∃ w0 ws, splitChars sep u = w0 :: ws ∧ w0 ++ ws.flatMap (fun a => sep :: a) = u := by
  induction u with
  | nil => exact ⟨[], [], rfl, rfl⟩
  | cons c cs ih =>
    obtain ⟨w0, ws, hs, hj⟩ := ih
    by_cases hc : c = sep
    · refine ⟨[], w0 :: ws, by simp [splitChars, hc, hs], ?_⟩
      simp [hj, hc]
    · refine ⟨c :: w0, ws, by simp [splitChars, hc, hs], ?_⟩
      simp [hj]

theorem flatMap_mk_data (ws : List (List Char)) :
    (ws.map String.mk).flatMap (fun a => ['/'] ++ a.data) = ws.flatMap (fun a => '/' :: a) := by
  induction ws with
  | nil => rfl
  | cons a as ih =>
    simp only [List.map_cons, List.flatMap_cons, ih]
    rfl

/-- Joining the pieces of `s.split('/')` but the last gives `s` up to its last slash. -/
theorem join_dropLast_split (dir file : String) (hfile : '/' ∉ file.data) :
    jsJoin (jsSliceFromZero (jsSplit (dir ++ "/" ++ file) '/')
      ((jsSplit (dir ++ "/" ++ file) '/').length - 1)) "/" = dir := by
  have hd : (dir ++ "/" ++ file).data = dir.data ++ '/' :: file.data := by simp
  obtain ⟨w0, ws, hs, hj⟩ := bind_sep_splitChars '/' dir.data
  have hsplit : jsSplit (dir ++ "/" ++ file) '/' = (w0 :: ws).map String.mk ++ [file] := by
    simp [jsSplit, hd, splitChars_append_sep_general, hs, splitChars_of_not_mem _ _ hfile]
  rw [hsplit]
  apply String.ext
  have hslash : "/".data = ['/'] := rfl
  simp only [jsSliceFromZero, jsJoin, List.length_append, List.length_singleton,
    Nat.add_sub_cancel, List.take_left', List.map_cons, String.intercalate, data_intercalate_go,
    hslash]
  rw [← hj, flatMap_mk_data]

/-- For a url that is exactly `protocol + '//' + hostname + path` (no port, credentials or
fragment, host in lower case), with the path cut at its last slash into `dir + '/' + file`,
the derived disk-image target is the url's directory followed by `/Brave-{version}.dmg`. -/
theorem dmgCheck_of_plain_url (parse : String → ParsedUrl)
    (url version proto host dir file : String)
    (hproto : (parse url).protocol = some proto) (hhost : (parse url).hostname = some host)
    (hpath : (parse url).path = some (dir ++ "/" ++ file)) (hfile : '/' ∉ file.data)
    (hurl : url = proto ++ "//" ++ host ++ dir ++ "/" ++ file) :
    dmgCheck parse url version
        = verifyUrl (specUrlDirectory url ++ "/Brave-" ++ version ++ ".dmg") "Brave dmg not found"
      ∧ specUrlDirectory url = proto ++ "//" ++ host ++ dir := by
  have hdir : specUrlDirectory url = proto ++ "//" ++ host ++ dir := by
    have h := join_dropLast_split (proto ++ "//" ++ host ++ dir) file hfile
    rw [hurl]
    simpa [specUrlDirectory, jsSliceFromZero, List.dropLast_eq_take] using h
  refine ⟨?_, hdir⟩
  rw [hdir]
  simp only [dmgCheck, hpath, hproto, hhost, nullToString, join_dropLast_split dir file hfile]

/-- The macOS url of the spec's end-to-end scenario is such a url. -/
theorem dmgCheck_of_plain_url_example :
    dmgCheck urlParse "https://cdn/x/osx/Brave.dmg" "1.0.0"
      = verifyUrl ("https://cdn/x/osx" ++ "/Brave-" ++ "1.0.0" ++ ".dmg") "Brave dmg not found" := by
  have h := dmgCheck_of_plain_url urlParse "https://cdn/x/osx/Brave.dmg" "1.0.0" "https:" "cdn"
    "/x/osx" "Brave.dmg" (by decide) (by decide) (by decide) (by decide) (by decide)
  rw [h.1, h.2]
  decide

end VerifyBrowser
